import Mathlib

/-!
Verification development for the customer-dispatch-automation repository.

Shallow embedding conventions:
- JavaScript strings are Lean `String`s; character-level work uses `List Char`.
- JavaScript `Date` values are modelled as epoch milliseconds (`Int`) on the
  scheduler side, and as the raw constructor string on the parser side
  (the source builds `new Date(dateTimeStr)` and performs no validation).
- JavaScript `Map` objects are association lists with set-replaces-first
  semantics, preserving insertion order exactly as the JS `Map` does.
- The sha256 digest of the ledger is abstracted as an arbitrary function
  `hash : String -> String`; the claims only depend on the digest being a
  function of the raw content.
- Exceptions are modelled with `Except String`.
-/

/-! ## Generic character-list helpers (JS string primitives) -/

/-- Match a literal pattern at the head of a list, returning the rest. -/
def dropLit : List Char → List Char → Option (List Char)
  | [], l => some l
  | _ :: _, [] => none
  | p :: ps, c :: cs => if p = c then dropLit ps cs else none

/-- Case-insensitive variant of `dropLit` (JS regex `i` flag, `toLowerCase`). -/
def dropLitCI : List Char → List Char → Option (List Char)
  | [], l => some l
  | _ :: _, [] => none
  | p :: ps, c :: cs => if p.toLower = c.toLower then dropLitCI ps cs else none

/-- Substring containment on character lists (JS `String.prototype.includes`). -/
def containsSub (pat : List Char) : List Char → Bool
  | [] => (dropLit pat []).isSome
  | c :: cs => (dropLit pat (c :: cs)).isSome || containsSub pat cs

/-- JS `includes` on `String`. -/
def strContains (s pat : String) : Bool := containsSub pat.data s.data

/-- JS `toLowerCase` (ASCII; the source only compares ASCII phrases). -/
def toLowerStr (s : String) : String := ⟨s.data.map Char.toLower⟩

/-- Whitespace class used by JS `\s` and `trim` (ASCII members). -/
def isWsC (c : Char) : Bool :=
  c = ' ' || c = '\t' || c = '\n' || c = '\r' || c = '\x0b' || c = '\x0c'

/-- JS `String.prototype.trim`. -/
def trimStr (s : String) : String :=
  ⟨((s.data.dropWhile isWsC).reverse.dropWhile isWsC).reverse⟩

/-! ## ProcessedEmailTracker (src/unnamed/part_008)

The tracker keeps `processed : Map<string, ProcessedEmail>`; the map is an
association list in insertion order, `set` replaces the first entry with the
same key or appends. -/

structure ProcessedEmail where
  messageId : String
  contentHash : String
  processedAt : Int
  subject : String
  fromAddr : String
deriving DecidableEq

/-- JS `Map.prototype.set` keyed on `messageId`. -/
def ledgerSet : List ProcessedEmail → ProcessedEmail → List ProcessedEmail
  | [], e => [e]
  | x :: xs, e => if x.messageId = e.messageId then e :: xs else x :: ledgerSet xs e

/-- JS `Map.prototype.has` keyed on `messageId`. -/
def ledgerHasId (m : List ProcessedEmail) (id : String) : Bool :=
  m.any (fun e => e.messageId == id)

/-- ProcessedEmailTracker.isProcessed: processed by id, or by content hash
over the values (catches forwarded emails). -/
def isProcessed (hash : String → String) (m : List ProcessedEmail)
    (messageId content : String) : Bool :=
  ledgerHasId m messageId || m.any (fun e => e.contentHash == hash content)

/-- ProcessedEmailTracker.markAsProcessed: build the entry and `set` it. -/
def markAsProcessed (hash : String → String) (m : List ProcessedEmail)
    (messageId subject fromAddr content : String) (now : Int) : List ProcessedEmail :=
  ledgerSet m
    { messageId := messageId
      contentHash := hash content
      processedAt := now
      subject := subject
      fromAddr := fromAddr }

/-- Thirty days in milliseconds; the source computes `thirtyDaysAgo` by
calendar subtraction, modelled here as a fixed millisecond span. -/
def thirtyDaysMs : Int := 30 * 24 * 60 * 60 * 1000

/-- Result of loading the ledger: the in-memory entries and the file contents
written back by `save` (none when `save` was not called). -/
structure TrackerState where
  entries : List ProcessedEmail
  savedFile : Option (List ProcessedEmail)
deriving DecidableEq

/-- ProcessedEmailTracker.cleanOldEntries: delete entries with
`processedAt < thirtyDaysAgo`; persist via `save` only when at least one
entry was cleaned. -/
def cleanOldEntries (now : Int) (m : List ProcessedEmail) : TrackerState :=
  let kept := m.filter (fun e => !(decide (e.processedAt < now - thirtyDaysMs)))
  if kept.length < m.length then { entries := kept, savedFile := some kept }
  else { entries := m, savedFile := none }

/-- File entries are loaded into the map one by one with `set`. -/
def loadEntries (file : List ProcessedEmail) : List ProcessedEmail :=
  file.foldl ledgerSet []

/-- ProcessedEmailTracker ledger load (the `initialize` method of the
source): read the file, fill the map, then clean entries older than 30
days. -/
def loadLedger (now : Int) (file : List ProcessedEmail) : TrackerState :=
  cleanOldEntries now (loadEntries file)

/-- Insertion step for the date sort used by `getStats`. -/
def insSortedInsert (x : Int) : List Int → List Int
  | [] => [x]
  | y :: ys => if x ≤ y then x :: y :: ys else y :: insSortedInsert x ys

/-- Ascending sort of the `processedAt` dates (`dates.sort((a, b) => a - b)`). -/
def insSort : List Int → List Int
  | [] => []
  | x :: xs => insSortedInsert x (insSort xs)

/-- ProcessedEmailTracker.getStats: total count plus the oldest and newest
dates read off the two ends of the sorted date list. -/
def getStats (m : List ProcessedEmail) : Nat × Option Int × Option Int :=
  if m.isEmpty then (0, none, none)
  else
    let sorted := insSort (m.map (fun e => e.processedAt))
    (m.length, sorted.head?, sorted.getLast?)

/-! ### Ledger lemmas -/

theorem mem_ledgerSet_self (m : List ProcessedEmail) (e : ProcessedEmail) :
    e ∈ ledgerSet m e := by
  induction m with
  | nil => simp [ledgerSet]
  | cons x xs ih =>
    by_cases h : x.messageId = e.messageId <;> simp [ledgerSet, h, ih]

theorem ledgerHasId_of_mem {m : List ProcessedEmail} {e : ProcessedEmail}
    (h : e ∈ m) : ledgerHasId m e.messageId = true := by
  simp only [ledgerHasId, List.any_eq_true]
  exact ⟨e, h, by simp⟩

/-- Count of ledger entries carrying a given message id. -/
def countId (m : List ProcessedEmail) (id : String) : Nat :=
  m.countP (fun e => e.messageId == id)

theorem countId_eq_zero_of_not_mem {m : List ProcessedEmail} {id : String}
    (h : id ∉ m.map (fun e => e.messageId)) : countId m id = 0 := by
  induction m with
  | nil => rfl
  | cons x xs ih =>
    simp only [List.map_cons, List.mem_cons, not_or] at h
    have hx : (x.messageId == id) = false := by
      simp only [beq_eq_false_iff_ne, ne_eq]
      exact fun hc => h.1 hc.symm
    simp only [countId, List.countP_cons, hx]
    exact ih h.2

theorem countId_le_one_of_nodup {m : List ProcessedEmail} {id : String}
    (h : (m.map (fun e => e.messageId)).Nodup) : countId m id ≤ 1 := by
  induction m with
  | nil => exact Nat.zero_le 1
  | cons x xs ih =>
    simp only [List.map_cons, List.nodup_cons] at h
    by_cases hx : x.messageId = id
    · have h0 : countId xs id = 0 := by
        apply countId_eq_zero_of_not_mem
        rw [← hx]; exact h.1
      have hc : countId (x :: xs) id = countId xs id + 1 := by
        simp [countId, List.countP_cons, hx]
      omega
    · have hxb : (x.messageId == id) = false := by
        simp [beq_eq_false_iff_ne, hx]
      have hc : countId (x :: xs) id = countId xs id := by
        simp [countId, List.countP_cons, hxb]
      have hr := ih h.2
      omega

theorem countId_ledgerSet {m : List ProcessedEmail} (e : ProcessedEmail)
    (h : countId m e.messageId ≤ 1) :
    countId (ledgerSet m e) e.messageId = 1 := by
  induction m with
  | nil => simp [ledgerSet, countId, List.countP_cons]
  | cons x xs ih =>
    by_cases hx : x.messageId = e.messageId
    · have hxb : (x.messageId == e.messageId) = true := by simp [hx]
      have hc : countId (x :: xs) e.messageId = countId xs e.messageId + 1 := by
        simp [countId, List.countP_cons, hxb]
      have h0 : countId xs e.messageId = 0 := by omega
      have hset : ledgerSet (x :: xs) e = e :: xs := by simp [ledgerSet, hx]
      rw [hset]
      have hce : countId (e :: xs) e.messageId = countId xs e.messageId + 1 := by
        simp [countId, List.countP_cons]
      omega
    · have hxb : (x.messageId == e.messageId) = false := by
        simp [beq_eq_false_iff_ne, hx]
      have hc : countId (x :: xs) e.messageId = countId xs e.messageId := by
        simp [countId, List.countP_cons, hxb]
      have hle : countId xs e.messageId ≤ 1 := by omega
      have hset : ledgerSet (x :: xs) e = x :: ledgerSet xs e := by
        simp [ledgerSet, hx]
      rw [hset]
      have hr := ih hle
      simp only [countId, List.countP_cons, hxb, if_false]
      simpa [countId] using ih hle

theorem ledgerSet_length_of_hasId {m : List ProcessedEmail} {e : ProcessedEmail}
    (h : ledgerHasId m e.messageId = true) :
    (ledgerSet m e).length = m.length := by
  induction m with
  | nil => simp [ledgerHasId] at h
  | cons x xs ih =>
    by_cases hx : x.messageId = e.messageId
    · simp [ledgerSet, hx]
    · have h' : ledgerHasId xs e.messageId = true := by
        simp only [ledgerHasId, List.any_cons] at h
        rcases Bool.or_eq_true_iff.mp h with h1 | h2
        · exact absurd (by simpa using h1) hx
        · exact h2
      simp [ledgerSet, hx, ih h']

theorem countId_markAsProcessed (hash : String → String) (m : List ProcessedEmail)
    (id subject fromAddr content : String) (now : Int)
    (h : countId m id ≤ 1) :
    countId (markAsProcessed hash m id subject fromAddr content now) id = 1 :=
  countId_ledgerSet _ h

theorem forall_of_filter_length_eq {α : Type} {p : α → Bool} :
    ∀ {l : List α}, (l.filter p).length = l.length → ∀ a ∈ l, p a = true := by
  intro l
  induction l with
  | nil => intro _ a ha; cases ha
  | cons x xs ih =>
    intro hlen a ha
    cases hp : p x with
    | true =>
      rcases List.mem_cons.mp ha with rfl | hmem
      · exact hp
      · apply ih _ a hmem
        simpa [List.filter_cons, hp] using hlen
    | false =>
      exfalso
      have hle := List.length_filter_le p xs
      simp [List.filter_cons, hp] at hlen
      omega

/-! ### Claim theorems for the tracker -/

/-- C3: after `markAsProcessed messageId subject from content` succeeds,
`isProcessed messageId c` is true for every content `c`, and
`isProcessed otherId content` is also true for every other message id when
the content is byte-identical, via the content-hash check. -/
theorem tracker_roundTrip (hash : String → String) (m : List ProcessedEmail)
    (id subject fromAddr content : String) (now : Int) (c otherId : String) :
    isProcessed hash (markAsProcessed hash m id subject fromAddr content now) id c = true ∧
    isProcessed hash (markAsProcessed hash m id subject fromAddr content now) otherId content = true := by
  have hmem := mem_ledgerSet_self m
    { messageId := id, contentHash := hash content, processedAt := now,
      subject := subject, fromAddr := fromAddr }
  constructor
  · have hid := ledgerHasId_of_mem hmem
    simp only [isProcessed, markAsProcessed, Bool.or_eq_true]
    left
    exact hid
  · simp only [isProcessed, markAsProcessed, Bool.or_eq_true]
    right
    exact List.any_eq_true.mpr ⟨_, hmem, by simp⟩

/-- C9: calling `markAsProcessed` twice with the same message id leaves a
single ledger entry for that id and the entry count does not grow on the
repeated call. -/
theorem tracker_mark_idem (hash : String → String) (m : List ProcessedEmail)
    (id s1 f1 c1 : String) (t1 : Int) (s2 f2 c2 : String) (t2 : Int)
    (hnd : (m.map (fun e => e.messageId)).Nodup) :
    (markAsProcessed hash (markAsProcessed hash m id s1 f1 c1 t1) id s2 f2 c2 t2).length =
      (markAsProcessed hash m id s1 f1 c1 t1).length ∧
    countId (markAsProcessed hash (markAsProcessed hash m id s1 f1 c1 t1) id s2 f2 c2 t2) id = 1 := by
  have hle : countId m id ≤ 1 := countId_le_one_of_nodup hnd
  have h1 : countId (markAsProcessed hash m id s1 f1 c1 t1) id = 1 :=
    countId_markAsProcessed hash m id s1 f1 c1 t1 hle
  constructor
  · have hhas : ledgerHasId (markAsProcessed hash m id s1 f1 c1 t1) id = true := by
      have h := ledgerHasId_of_mem (mem_ledgerSet_self m
        { messageId := id, contentHash := hash c1, processedAt := t1,
          subject := s1, fromAddr := f1 })
      exact h
    exact ledgerSet_length_of_hasId hhas
  · exact countId_markAsProcessed hash _ id s2 f2 c2 t2 (by omega)

/-- Witness for C9 at a concrete ledger. -/
theorem tracker_mark_idem_witness :
    (markAsProcessed (fun s => s) (markAsProcessed (fun s => s) [] "m1" "su" "fr" "body" 0) "m1" "su2" "fr2" "body" 5).length =
      (markAsProcessed (fun s => s) [] "m1" "su" "fr" "body" 0).length ∧
    countId (markAsProcessed (fun s => s) (markAsProcessed (fun s => s) [] "m1" "su" "fr" "body" 0) "m1" "su2" "fr2" "body" 5) "m1" = 1 :=
  tracker_mark_idem (fun s => s) [] "m1" "su" "fr" "body" 0 "su2" "fr2" "body" 5 (by simp)

/-- C7: on ledger load every entry older than 30 days is dropped, dropping
re-persists the pruned set, and a file with one entry 31 days old and one
dated today yields stats total 1 with only the recent entry surviving. -/
theorem ledger_load_prunes :
    (∀ (now : Int) (file : List ProcessedEmail) (e : ProcessedEmail),
      e ∈ (loadLedger now file).entries → ¬(e.processedAt < now - thirtyDaysMs)) ∧
    (∀ (now : Int) (eOld eNew : ProcessedEmail),
      eOld.processedAt < now - thirtyDaysMs →
      ¬(eNew.processedAt < now - thirtyDaysMs) →
      eOld.messageId ≠ eNew.messageId →
      (loadLedger now [eOld, eNew]).entries = [eNew] ∧
      (getStats (loadLedger now [eOld, eNew]).entries).1 = 1 ∧
      (loadLedger now [eOld, eNew]).savedFile = some [eNew]) := by
  constructor
  · intro now file e hmem
    unfold loadLedger cleanOldEntries at hmem
    set m := loadEntries file with hm
    by_cases hlt :
        (m.filter (fun e => !(decide (e.processedAt < now - thirtyDaysMs)))).length < m.length
    · simp only [hlt, if_true] at hmem
      have := (List.mem_filter.mp hmem).2
      simpa using this
    · simp only [hlt, if_false] at hmem
      have hlen :
          (m.filter (fun e => !(decide (e.processedAt < now - thirtyDaysMs)))).length = m.length := by
        have := List.length_filter_le (fun e => !(decide (e.processedAt < now - thirtyDaysMs))) m
        omega
      have := forall_of_filter_length_eq hlen e hmem
      simpa using this
  · intro now eOld eNew hOld hNew hne
    have hload : loadEntries [eOld, eNew] = [eOld, eNew] := by
      simp [loadEntries, ledgerSet, hne]
    have hO : (decide (eOld.processedAt < now - thirtyDaysMs)) = true := decide_eq_true hOld
    have hN : (decide (eNew.processedAt < now - thirtyDaysMs)) = false :=
      decide_eq_false hNew
    have hfil :
        ([eOld, eNew].filter (fun e => !(decide (e.processedAt < now - thirtyDaysMs)))) = [eNew] := by
      simp [List.filter_cons, hO, hN]
    refine ⟨?_, ?_, ?_⟩ <;>
      simp [loadLedger, cleanOldEntries, hload, hfil, getStats]

/-- Witness for C7 at concrete timestamps: one entry 31 days old, one from
today. -/
theorem ledger_load_prunes_witness :
    (loadLedger (100 * 86400000)
      [{ messageId := "old", contentHash := "h1", processedAt := 69 * 86400000,
         subject := "a", fromAddr := "x" },
       { messageId := "new", contentHash := "h2", processedAt := 100 * 86400000,
         subject := "b", fromAddr := "y" }]).entries =
      [{ messageId := "new", contentHash := "h2", processedAt := 100 * 86400000,
         subject := "b", fromAddr := "y" }] ∧
    (getStats (loadLedger (100 * 86400000)
      [{ messageId := "old", contentHash := "h1", processedAt := 69 * 86400000,
         subject := "a", fromAddr := "x" },
       { messageId := "new", contentHash := "h2", processedAt := 100 * 86400000,
         subject := "b", fromAddr := "y" }]).entries).1 = 1 ∧
    (loadLedger (100 * 86400000)
      [{ messageId := "old", contentHash := "h1", processedAt := 69 * 86400000,
         subject := "a", fromAddr := "x" },
       { messageId := "new", contentHash := "h2", processedAt := 100 * 86400000,
         subject := "b", fromAddr := "y" }]).savedFile =
      some [{ messageId := "new", contentHash := "h2", processedAt := 100 * 86400000,
              subject := "b", fromAddr := "y" }] :=
  ledger_load_prunes.2 (100 * 86400000) _ _ (by decide) (by decide) (by decide)

/-! ## Scheduler (src/unnamed/part_005)

Jobs live in a JS `Map<string, ScheduledJob>`; `Date` arithmetic is epoch
milliseconds. Per-facility execution is deterministic up to an oracle
`fails : String -> Bool` saying whether the body of `processFacility`'s try
block throws for that facility. -/

structure DispatchFacility where
  companyName : String
  facilityName : String
  address : String
  accountNumber : String
  dispatchTarget : String
deriving DecidableEq

/-- Scheduler-facing view of a DispatchEvent (src/types): only the fields
the scheduler reads; `startTime` in epoch milliseconds. -/
structure DispatchEventS where
  dispatchType : String
  startTime : Int
  timezone : String
  facilities : List DispatchFacility
deriving DecidableEq

inductive JobStatus
  | pending
  | running
  | completed
  | failed
deriving DecidableEq

/-- ScheduledJob of the scheduler: `hasTask` models presence of the
optional `task` field, `taskActive` models a cron task that has not been
stopped. -/
structure SchedJob where
  id : String
  facilityName : String
  scheduledTime : Int
  hasTask : Bool
  taskActive : Bool
  status : JobStatus
deriving DecidableEq

structure SchedulerState where
  jobs : List (String × SchedJob)
  jobCounter : Nat
deriving DecidableEq

/-- Decimal digit characters of a natural number, fuel-based so that it
reduces inside `decide`; mirrors the JS template interpolation of the job
counter. -/
def natReprAux : Nat → Nat → List Char
  | 0, _ => []
  | fuel + 1, n =>
    if n < 10 then [Nat.digitChar n]
    else natReprAux fuel (n / 10) ++ [Nat.digitChar (n % 10)]

def natRepr (n : Nat) : List Char := natReprAux (n + 1) n

/-- Numeric value of a decimal digit character. -/
def readDigit (c : Char) : Nat := c.toNat - 48

/-- Decimal read-back, the inverse of `natRepr`. -/
def readNat (l : List Char) : Nat := l.foldl (fun a c => 10 * a + readDigit c) 0

theorem foldl_digits_shift (l : List Char) :
    ∀ acc : Nat, l.foldl (fun a c => 10 * a + readDigit c) acc =
      acc * 10 ^ l.length + l.foldl (fun a c => 10 * a + readDigit c) 0 := by
  induction l with
  | nil => intro acc; simp
  | cons c cs ih =>
    intro acc
    simp only [List.foldl_cons, List.length_cons]
    rw [ih (10 * acc + readDigit c), ih (10 * 0 + readDigit c)]
    ring

theorem readDigit_digitChar : ∀ d < 10, readDigit (Nat.digitChar d) = d := by decide

theorem digitChar_isDigit : ∀ d < 10, (Nat.digitChar d).isDigit = true := by decide

theorem ten_pow_mono : ∀ n : Nat, n < 10 ^ (n + 1) := by
  intro n
  induction n with
  | zero => norm_num
  | succ k ih =>
    have h2 : 10 ^ (k + 1) * 10 = 10 ^ (k + 2) := by ring
    have hp : 0 < 10 ^ (k + 1) := Nat.pos_pow_of_pos _ (by norm_num)
    omega

theorem readNat_natReprAux : ∀ (fuel n : Nat), n < 10 ^ fuel →
    readNat (natReprAux fuel n) = n := by
  intro fuel
  induction fuel with
  | zero =>
    intro n hn
    interval_cases n
    rfl
  | succ f ih =>
    intro n hn
    by_cases h10 : n < 10
    · simp only [natReprAux, h10, if_true, readNat, List.foldl_cons, List.foldl_nil]
      have := readDigit_digitChar n h10
      omega
    · have hdiv : n / 10 < 10 ^ f := by
        have hps : 10 ^ (f + 1) = 10 ^ f * 10 := by ring
        omega
      have hrec := ih (n / 10) hdiv
      have hmod := readDigit_digitChar (n % 10) (Nat.mod_lt n (by norm_num))
      simp only [natReprAux, h10, if_false, readNat, List.foldl_append,
        List.foldl_cons, List.foldl_nil]
      simp only [readNat] at hrec
      rw [hrec, hmod]
      omega

theorem readNat_natRepr (n : Nat) : readNat (natRepr n) = n :=
  readNat_natReprAux (n + 1) n (ten_pow_mono n)

theorem natRepr_inj {n m : Nat} (h : natRepr n = natRepr m) : n = m := by
  have h1 := readNat_natRepr n
  have h2 := readNat_natRepr m
  rw [h] at h1
  omega

theorem natReprAux_digits : ∀ (fuel n : Nat) (c : Char),
    c ∈ natReprAux fuel n → c.isDigit = true := by
  intro fuel
  induction fuel with
  | zero => intro n c hc; cases hc
  | succ f ih =>
    intro n c hc
    by_cases h10 : n < 10
    · simp only [natReprAux, h10, if_true, List.mem_singleton] at hc
      rw [hc]
      exact digitChar_isDigit n h10
    · simp only [natReprAux, h10, if_false, List.mem_append, List.mem_singleton] at hc
      rcases hc with hrec | hlast
      · exact ih (n / 10) c hrec
      · rw [hlast]
        exact digitChar_isDigit (n % 10) (Nat.mod_lt n (by norm_num))

theorem natRepr_digits (n : Nat) (c : Char) (hc : c ∈ natRepr n) : c.isDigit = true :=
  natReprAux_digits (n + 1) n c hc

theorem append_cancel_left_chars : ∀ (a b c : List Char), a ++ b = a ++ c → b = c := by
  intro a
  induction a with
  | nil => intro b c h; simpa using h
  | cons x xs ih =>
    intro b c h
    simp only [List.cons_append, List.cons.injEq] at h
    exact ih b c h.2

theorem digits_dash_split : ∀ (a b r1 r2 : List Char),
    (∀ c ∈ a, c.isDigit = true) → (∀ c ∈ b, c.isDigit = true) →
    a ++ '-' :: r1 = b ++ '-' :: r2 → a = b := by
  intro a
  induction a with
  | nil =>
    intro b r1 r2 _ hb heq
    cases b with
    | nil => rfl
    | cons x xs =>
      exfalso
      simp only [List.nil_append, List.cons_append, List.cons.injEq] at heq
      have hx := hb x (List.mem_cons_self x xs)
      rw [← heq.1] at hx
      exact absurd hx (by decide)
  | cons x xs ih =>
    intro b r1 r2 ha hb heq
    cases b with
    | nil =>
      exfalso
      simp only [List.cons_append, List.nil_append, List.cons.injEq] at heq
      have hx := ha x (List.mem_cons_self x xs)
      rw [heq.1] at hx
      exact absurd hx (by decide)
    | cons y ys =>
      simp only [List.cons_append, List.cons.injEq] at heq
      have htail := ih ys r1 r2 (fun c hc => ha c (List.mem_cons_of_mem _ hc))
        (fun c hc => hb c (List.mem_cons_of_mem _ hc)) heq.2
      rw [heq.1, htail]

/-- JS `facilityName.replace(/[^a-z0-9]/gi, '-')`. -/
def sanitizeName (s : String) : String :=
  ⟨s.data.map (fun c => if c.isAlpha || c.isDigit then c else '-')⟩

/-- Job id built as the prefix, the counter and the sanitized facility
name joined by dashes. -/
def mkJobId (pfx : String) (n : Nat) (facilityName : String) : String :=
  ⟨pfx.data ++ natRepr n ++ '-' :: (sanitizeName facilityName).data⟩

theorem mkJobId_counter_inj {pfx : String} {n1 n2 : Nat} {s1 s2 : String}
    (h : mkJobId pfx n1 s1 = mkJobId pfx n2 s2) : n1 = n2 := by
  have hdata : pfx.data ++ (natRepr n1 ++ '-' :: (sanitizeName s1).data)
             = pfx.data ++ (natRepr n2 ++ '-' :: (sanitizeName s2).data) := by
    have := congrArg String.data h
    simpa [mkJobId] using this
  have hmid := append_cancel_left_chars _ _ _ hdata
  exact natRepr_inj (digits_dash_split _ _ _ _ (natRepr_digits n1) (natRepr_digits n2) hmid)

/-- JS `Map.prototype.get` on the jobs map. -/
def jobsFind : List (String × SchedJob) → String → Option SchedJob
  | [], _ => none
  | e :: rest, id => if e.1 = id then some e.2 else jobsFind rest id

/-- JS `Map.prototype.set` on the jobs map. -/
def jobsSet : List (String × SchedJob) → String → SchedJob → List (String × SchedJob)
  | [], id, j => [(id, j)]
  | e :: rest, id, j => if e.1 = id then (id, j) :: rest else e :: jobsSet rest id j

/-- Mutation of the job object returned by `get` (first matching entry). -/
def jobsUpdate : List (String × SchedJob) → String → (SchedJob → SchedJob) → List (String × SchedJob)
  | [], _, _ => []
  | e :: rest, id, f => if e.1 = id then (e.1, f e.2) :: rest else e :: jobsUpdate rest id f

/-- Write `job.status = st` when the id is tracked in the map; the second
component logs the transition when it happened. -/
def setJobStatus (jobs : List (String × SchedJob)) (id : String) (st : JobStatus) :
    List (String × SchedJob) × List (String × JobStatus) :=
  match jobsFind jobs id with
  | some _ => (jobsUpdate jobs id (fun j => { j with status := st }), [(id, st)])
  | none => (jobs, [])

/-- Ten minutes in milliseconds (`setMinutes(getMinutes() + 10)`). -/
def tenMinutesMs : Int := 10 * 60 * 1000

/-- Scheduler.processFacility: mark the tracked job running, run the body
(the `ok` flag says whether the try block completed without throwing), then
mark it completed or failed. -/
def processFacility (s : SchedulerState) (jobId : String) (ok : Bool) :
    SchedulerState × List (String × JobStatus) :=
  let r1 := setJobStatus s.jobs jobId .running
  let r2 := setJobStatus r1.1 jobId (if ok then .completed else .failed)
  ({ s with jobs := r2.1 }, r1.2 ++ r2.2)

/-- Fold of Scheduler.processAllFacilities over the facility list: each
facility bumps the counter, gets an `immediate-` job id and is processed;
`Promise.allSettled` collects one outcome per facility. -/
def processAllAux (fails : String → Bool) :
    List DispatchFacility → SchedulerState →
    SchedulerState × List Bool × List (String × JobStatus)
  | [], s => (s, [], [])
  | fac :: rest, s =>
    let counter := s.jobCounter + 1
    let jobId := mkJobId "immediate-" counter fac.facilityName
    let ok := !(fails fac.facilityName)
    let r := processFacility { s with jobCounter := counter } jobId ok
    let rr := processAllAux fails rest r.1
    (rr.1, ok :: rr.2.1, r.2 ++ rr.2.2)

/-- Scheduler.processAllFacilities. -/
def processAllFacilities (s : SchedulerState) (ev : DispatchEventS) (fails : String → Bool) :
    SchedulerState × List Bool × List (String × JobStatus) :=
  processAllAux fails ev.facilities s

/-- Fold of the future branch of scheduleDispatchNotifications: one
pending cron-backed job per facility, keyed by a fresh job id. -/
def scheduleJobsAux (notifTime : Int) :
    List DispatchFacility → Nat → List (String × SchedJob) → Nat × List (String × SchedJob)
  | [], counter, jobs => (counter, jobs)
  | fac :: rest, counter, jobs =>
    let counter' := counter + 1
    let jobId := mkJobId "job-" counter' fac.facilityName
    let job : SchedJob :=
      { id := jobId, facilityName := fac.facilityName, scheduledTime := notifTime,
        hasTask := true, taskActive := true, status := .pending }
    scheduleJobsAux notifTime rest counter' (jobsSet jobs jobId job)

/-- Scheduler.scheduleDispatchNotifications: fire time is start + 10 min;
a past-due fire time triggers immediate processing of all facilities,
otherwise one pending job per facility is recorded. The second component
lists the settled outcome per immediately processed facility, the third
logs every status written to a tracked job. -/
def scheduleDispatchNotifications (now : Int) (s : SchedulerState) (ev : DispatchEventS)
    (fails : String → Bool) :
    SchedulerState × List Bool × List (String × JobStatus) :=
  let notificationTime := ev.startTime + tenMinutesMs
  if notificationTime ≤ now then
    processAllFacilities s ev fails
  else
    let r := scheduleJobsAux notificationTime ev.facilities s.jobCounter s.jobs
    ({ jobs := r.2, jobCounter := r.1 }, [], [])

/-- Scheduler.getActiveJobs. -/
def getActiveJobs (s : SchedulerState) : List SchedJob :=
  (s.jobs.map Prod.snd).filter (fun j => j.status == JobStatus.pending)

/-- Scheduler.getJobStatus. -/
def getJobStatus (s : SchedulerState) (jobId : String) : Option SchedJob :=
  jobsFind s.jobs jobId

/-- Scheduler.cancelJob: when the job exists, has a task and is pending,
stop the task, set the status to failed and return true; otherwise a
no-op returning false. -/
def cancelJob (s : SchedulerState) (jobId : String) : Bool × SchedulerState :=
  match jobsFind s.jobs jobId with
  | some job =>
    if job.hasTask && (job.status == JobStatus.pending) then
      let stopped := jobsUpdate s.jobs jobId
        (fun j => { j with taskActive := false, status := JobStatus.failed })
      (true, { s with jobs := stopped })
    else (false, s)
  | none => (false, s)

/-- Firing of the cron task behind a tracked job: node-cron does not invoke
the callback of a stopped task, so a stopped or absent task leaves the
state untouched. -/
def fireTask (s : SchedulerState) (jobId : String) (ok : Bool) :
    SchedulerState × List (String × JobStatus) :=
  match jobsFind s.jobs jobId with
  | some job =>
    if job.hasTask && job.taskActive then processFacility s jobId ok else (s, [])
  | none => (s, [])

/-! ### Scheduler lemmas -/

theorem jobsFind_jobsUpdate (jobs : List (String × SchedJob)) (id : String)
    (f : SchedJob → SchedJob) :
    jobsFind (jobsUpdate jobs id f) id = (jobsFind jobs id).map f := by
  induction jobs with
  | nil => rfl
  | cons e rest ih =>
    by_cases h : e.1 = id
    · simp [jobsUpdate, jobsFind, h]
    · simp [jobsUpdate, jobsFind, h, ih]

/-- C6: cancelling a tracked pending job that has a task returns true,
stops its timer (the task never fires afterwards) and moves it to failed;
a second cancel on the same id, or a cancel of any tracked job that is not
pending, returns false and leaves the state unchanged. -/
theorem cancelJob_spec :
    (∀ (s : SchedulerState) (jobId : String) (j : SchedJob),
      jobsFind s.jobs jobId = some j → j.hasTask = true → j.status = JobStatus.pending →
      (cancelJob s jobId).1 = true ∧
      jobsFind (cancelJob s jobId).2.jobs jobId =
        some { j with taskActive := false, status := JobStatus.failed } ∧
      (∀ ok, fireTask (cancelJob s jobId).2 jobId ok = ((cancelJob s jobId).2, [])) ∧
      cancelJob (cancelJob s jobId).2 jobId = (false, (cancelJob s jobId).2)) ∧
    (∀ (s : SchedulerState) (jobId : String) (j : SchedJob),
      jobsFind s.jobs jobId = some j → j.status ≠ JobStatus.pending →
      cancelJob s jobId = (false, s)) := by
  constructor
  · intro s jobId j hfind hTask hPend
    have hcond : (j.hasTask && (j.status == JobStatus.pending)) = true := by
      simp [hTask, hPend]
    have hcancel : cancelJob s jobId =
        (true, { s with jobs := jobsUpdate s.jobs jobId (fun j => { j with taskActive := false, status := JobStatus.failed }) }) := by
      simp [cancelJob, hfind, hcond]
    have hfind2 : jobsFind (cancelJob s jobId).2.jobs jobId =
        some { j with taskActive := false, status := JobStatus.failed } := by
      rw [hcancel]
      simp [jobsFind_jobsUpdate, hfind]
    refine ⟨by rw [hcancel], hfind2, ?_, ?_⟩
    · intro ok
      generalize hS : (cancelJob s jobId).2 = s2 at hfind2 ⊢
      simp [fireTask, hfind2]
    · generalize hS : (cancelJob s jobId).2 = s2 at hfind2 ⊢
      simp [cancelJob, hfind2]
  · intro s jobId j hfind hne
    have hb : (j.status == JobStatus.pending) = false := by simp [hne]
    simp [cancelJob, hfind, hb]

/-- Sample pending job used by the C6 witness. -/
def sampleJob : SchedJob :=
  { id := "job-1-F", facilityName := "F", scheduledTime := 600000,
    hasTask := true, taskActive := true, status := JobStatus.pending }

/-- Sample one-job scheduler used by the C6 witness. -/
def sampleSched : SchedulerState :=
  { jobs := [("job-1-F", sampleJob)], jobCounter := 1 }

/-- Witness for C6 at a concrete one-job scheduler. -/
theorem cancelJob_spec_witness :
    (cancelJob sampleSched "job-1-F").1 = true ∧
    jobsFind (cancelJob sampleSched "job-1-F").2.jobs "job-1-F" =
      some { sampleJob with taskActive := false, status := JobStatus.failed } ∧
    fireTask (cancelJob sampleSched "job-1-F").2 "job-1-F" true =
      ((cancelJob sampleSched "job-1-F").2, []) ∧
    cancelJob (cancelJob sampleSched "job-1-F").2 "job-1-F" =
      (false, (cancelJob sampleSched "job-1-F").2) := by
  obtain ⟨h1, h2, h3, h4⟩ :=
    cancelJob_spec.1 sampleSched "job-1-F" sampleJob (by decide) (by decide) (by decide)
  exact ⟨h1, h2, h3 true, h4⟩

theorem processFacility_jobCounter (s : SchedulerState) (jobId : String) (ok : Bool) :
    (processFacility s jobId ok).1.jobCounter = s.jobCounter := rfl

theorem processFacility_empty (s : SchedulerState) (jobId : String) (ok : Bool)
    (h : s.jobs = []) :
    (processFacility s jobId ok).1.jobs = [] ∧ (processFacility s jobId ok).2 = [] := by
  simp [processFacility, setJobStatus, h, jobsFind]

theorem processAllAux_spec (fails : String → Bool) :
    ∀ (facs : List DispatchFacility) (s : SchedulerState),
      (processAllAux fails facs s).2.1 = facs.map (fun f => !(fails f.facilityName)) ∧
      (processAllAux fails facs s).1.jobCounter = s.jobCounter + facs.length ∧
      (s.jobs = [] → (processAllAux fails facs s).1.jobs = [] ∧
        (processAllAux fails facs s).2.2 = []) := by
  intro facs
  induction facs with
  | nil => intro s; simp [processAllAux]
  | cons fac rest ih =>
    intro s
    obtain ⟨ih1, ih2, ih3⟩ := ih (processFacility { s with jobCounter := s.jobCounter + 1 }
      (mkJobId "immediate-" (s.jobCounter + 1) fac.facilityName) (!(fails fac.facilityName))).1
    refine ⟨?_, ?_, ?_⟩
    · show (!(fails fac.facilityName)) ::
        (processAllAux fails rest (processFacility { s with jobCounter := s.jobCounter + 1 }
          (mkJobId "immediate-" (s.jobCounter + 1) fac.facilityName)
          (!(fails fac.facilityName))).1).2.1 =
        (fac :: rest).map (fun f => !(fails f.facilityName))
      rw [List.map_cons, ih1]
    · show (processAllAux fails rest (processFacility { s with jobCounter := s.jobCounter + 1 }
          (mkJobId "immediate-" (s.jobCounter + 1) fac.facilityName)
          (!(fails fac.facilityName))).1).1.jobCounter = s.jobCounter + (fac :: rest).length
      rw [ih2, processFacility_jobCounter]
      simp [List.length_cons]
      omega
    · intro hjobs
      have hpf := processFacility_empty { s with jobCounter := s.jobCounter + 1 }
        (mkJobId "immediate-" (s.jobCounter + 1) fac.facilityName)
        (!(fails fac.facilityName)) hjobs
      obtain ⟨hrest1, hrest2⟩ := ih3 hpf.1
      constructor
      · exact hrest1
      · show (processFacility { s with jobCounter := s.jobCounter + 1 }
            (mkJobId "immediate-" (s.jobCounter + 1) fac.facilityName)
            (!(fails fac.facilityName))).2 ++
          (processAllAux fails rest (processFacility { s with jobCounter := s.jobCounter + 1 }
            (mkJobId "immediate-" (s.jobCounter + 1) fac.facilityName)
            (!(fails fac.facilityName))).1).2.2 = []
        rw [hpf.2, hrest2]
        rfl

/-- C1 counterexample: a past-due event on a fresh scheduler is processed
immediately (its single facility yields one settled result and the counter
advances), yet no ScheduledJob record exists afterwards and no job status
was ever written — in particular no job reached the running state, against
the claim. -/
theorem scheduler_pastDue_counterexample :
    scheduleDispatchNotifications 600000 { jobs := [], jobCounter := 0 }
      { dispatchType := "National Grid - Targeted Dispatch", startTime := 0,
        timezone := "EDT",
        facilities := [{ companyName := "Co", facilityName := "F", address := "A",
                         accountNumber := "1", dispatchTarget := "5 kW" }] }
      (fun _ => false) =
    ({ jobs := [], jobCounter := 1 }, [true], []) := by decide

/-- C1 amended: for a past-due fire time every facility is processed
immediately without any timer, `Promise.allSettled` collects one outcome
per facility and each outcome depends only on that facility (one failure
never prevents the others from completing), but no ScheduledJob records
are created or transitioned: on a fresh scheduler the jobs map stays empty
and no status write — in particular none to running — ever happens. -/
theorem scheduler_pastDue_immediate (now : Int) (s : SchedulerState) (ev : DispatchEventS)
    (fails : String → Bool) (h : ev.startTime + tenMinutesMs ≤ now) :
    (scheduleDispatchNotifications now s ev fails).2.1 =
      ev.facilities.map (fun f => !(fails f.facilityName)) ∧
    (scheduleDispatchNotifications now s ev fails).1.jobCounter =
      s.jobCounter + ev.facilities.length ∧
    (s.jobs = [] →
      (scheduleDispatchNotifications now s ev fails).1.jobs = [] ∧
      (scheduleDispatchNotifications now s ev fails).2.2 = []) := by
  have hsched : scheduleDispatchNotifications now s ev fails = processAllFacilities s ev fails := by
    simp [scheduleDispatchNotifications, h]
  rw [hsched]
  exact processAllAux_spec fails ev.facilities s

/-- Witness for C1 at a two-facility past-due event where one facility
fails and the other still completes. -/
theorem scheduler_pastDue_immediate_witness :
    (scheduleDispatchNotifications 600001 { jobs := [], jobCounter := 0 }
      { dispatchType := "Curtailment", startTime := 0, timezone := "EDT",
        facilities := [{ companyName := "Co", facilityName := "F", address := "A",
                         accountNumber := "1", dispatchTarget := "5 kW" },
                       { companyName := "Co", facilityName := "G", address := "B",
                         accountNumber := "2", dispatchTarget := "6 kW" }] }
      (fun n => n == "G")).2.1 =
      ([{ companyName := "Co", facilityName := "F", address := "A",
          accountNumber := "1", dispatchTarget := "5 kW" },
        { companyName := "Co", facilityName := "G", address := "B",
          accountNumber := "2", dispatchTarget := "6 kW" }] :
        List DispatchFacility).map (fun f => !((f.facilityName == "G") : Bool)) ∧
    (scheduleDispatchNotifications 600001 { jobs := [], jobCounter := 0 }
      { dispatchType := "Curtailment", startTime := 0, timezone := "EDT",
        facilities := [{ companyName := "Co", facilityName := "F", address := "A",
                         accountNumber := "1", dispatchTarget := "5 kW" },
                       { companyName := "Co", facilityName := "G", address := "B",
                         accountNumber := "2", dispatchTarget := "6 kW" }] }
      (fun n => n == "G")).1.jobCounter = 0 + 2 ∧
    (([] : List (String × SchedJob)) = [] →
      (scheduleDispatchNotifications 600001 { jobs := [], jobCounter := 0 }
        { dispatchType := "Curtailment", startTime := 0, timezone := "EDT",
          facilities := [{ companyName := "Co", facilityName := "F", address := "A",
                           accountNumber := "1", dispatchTarget := "5 kW" },
                         { companyName := "Co", facilityName := "G", address := "B",
                           accountNumber := "2", dispatchTarget := "6 kW" }] }
        (fun n => n == "G")).1.jobs = [] ∧
      (scheduleDispatchNotifications 600001 { jobs := [], jobCounter := 0 }
        { dispatchType := "Curtailment", startTime := 0, timezone := "EDT",
          facilities := [{ companyName := "Co", facilityName := "F", address := "A",
                           accountNumber := "1", dispatchTarget := "5 kW" },
                         { companyName := "Co", facilityName := "G", address := "B",
                           accountNumber := "2", dispatchTarget := "6 kW" }] }
        (fun n => n == "G")).2.2 = []) :=
  scheduler_pastDue_immediate 600001 { jobs := [], jobCounter := 0 }
    { dispatchType := "Curtailment", startTime := 0, timezone := "EDT",
      facilities := [{ companyName := "Co", facilityName := "F", address := "A",
                       accountNumber := "1", dispatchTarget := "5 kW" },
                     { companyName := "Co", facilityName := "G", address := "B",
                       accountNumber := "2", dispatchTarget := "6 kW" }] }
    (fun n => n == "G") (by decide)

theorem jobsSet_append (jobs : List (String × SchedJob)) (id : String) (j : SchedJob)
    (h : ∀ e ∈ jobs, e.1 ≠ id) : jobsSet jobs id j = jobs ++ [(id, j)] := by
  induction jobs with
  | nil => rfl
  | cons e rest ih =>
    have he : e.1 ≠ id := h e (List.mem_cons_self e rest)
    show (if e.1 = id then (id, j) :: rest else e :: jobsSet rest id j) = e :: (rest ++ [(id, j)])
    rw [if_neg he]
    exact congrArg _ (ih (fun x hx => h x (List.mem_cons_of_mem e hx)))

/-- Keys of a jobs map that can never collide with a job id whose counter
exceeds `c`. -/
def freshFrom (jobs : List (String × SchedJob)) (c : Nat) : Prop :=
  ∀ e ∈ jobs, ∀ (m : Nat) (nm : String), c < m → e.1 ≠ mkJobId "job-" m nm

/-- Explicit form of the pending jobs created by the future branch of
scheduleDispatchNotifications. -/
def expectedJobs (notifTime : Int) : List DispatchFacility → Nat → List (String × SchedJob)
  | [], _ => []
  | fac :: rest, counter =>
    (mkJobId "job-" (counter + 1) fac.facilityName,
      { id := mkJobId "job-" (counter + 1) fac.facilityName,
        facilityName := fac.facilityName, scheduledTime := notifTime,
        hasTask := true, taskActive := true, status := JobStatus.pending }) ::
    expectedJobs notifTime rest (counter + 1)

theorem scheduleJobsAux_spec (t : Int) :
    ∀ (facs : List DispatchFacility) (c : Nat) (pre : List (String × SchedJob)),
      freshFrom pre c →
      scheduleJobsAux t facs c pre = (c + facs.length, pre ++ expectedJobs t facs c) := by
  intro facs
  induction facs with
  | nil => intro c pre _; simp [scheduleJobsAux, expectedJobs]
  | cons fac rest ih =>
    intro c pre h
    have habs : ∀ e ∈ pre, e.1 ≠ mkJobId "job-" (c + 1) fac.facilityName :=
      fun e he => h e he (c + 1) fac.facilityName (Nat.lt_succ_self c)
    have hfresh : freshFrom (pre ++ [(mkJobId "job-" (c + 1) fac.facilityName,
        { id := mkJobId "job-" (c + 1) fac.facilityName,
          facilityName := fac.facilityName, scheduledTime := t,
          hasTask := true, taskActive := true, status := JobStatus.pending })]) (c + 1) := by
      intro e he m nm hm
      rcases List.mem_append.mp he with hpre | hnew
      · exact h e hpre m nm (by omega)
      · rw [List.mem_singleton.mp hnew]
        intro hc
        have := mkJobId_counter_inj hc
        omega
    show scheduleJobsAux t rest (c + 1)
        (jobsSet pre (mkJobId "job-" (c + 1) fac.facilityName)
          { id := mkJobId "job-" (c + 1) fac.facilityName,
            facilityName := fac.facilityName, scheduledTime := t,
            hasTask := true, taskActive := true, status := JobStatus.pending }) =
      (c + (fac :: rest).length, pre ++ expectedJobs t (fac :: rest) c)
    rw [jobsSet_append pre _ _ habs, ih (c + 1) _ hfresh]
    refine Prod.ext ?_ ?_
    · simp [List.length_cons]
      omega
    · show (pre ++ [_]) ++ expectedJobs t rest (c + 1) = pre ++ expectedJobs t (fac :: rest) c
      rw [List.append_assoc]
      rfl

theorem expectedJobs_length (t : Int) :
    ∀ (facs : List DispatchFacility) (c : Nat),
      (expectedJobs t facs c).length = facs.length := by
  intro facs
  induction facs with
  | nil => intro c; rfl
  | cons fac rest ih => intro c; simp [expectedJobs, ih]

theorem expectedJobs_names (t : Int) :
    ∀ (facs : List DispatchFacility) (c : Nat),
      ((expectedJobs t facs c).map Prod.snd).map (fun j => j.facilityName) =
        facs.map (fun f => f.facilityName) := by
  intro facs
  induction facs with
  | nil => intro c; rfl
  | cons fac rest ih => intro c; simp [expectedJobs, ih]

theorem expectedJobs_pending (t : Int) :
    ∀ (facs : List DispatchFacility) (c : Nat) (j : SchedJob),
      j ∈ (expectedJobs t facs c).map Prod.snd → j.status = JobStatus.pending := by
  intro facs
  induction facs with
  | nil => intro c j hj; cases hj
  | cons fac rest ih =>
    intro c j hj
    simp only [expectedJobs, List.map_cons, List.mem_cons] at hj
    rcases hj with hj | hj
    · rw [hj]
    · exact ih (c + 1) j hj

theorem expectedJobs_id_shape (t : Int) :
    ∀ (facs : List DispatchFacility) (c : Nat) (j : SchedJob),
      j ∈ (expectedJobs t facs c).map Prod.snd →
      ∃ (m : Nat) (nm : String), c < m ∧ j.id = mkJobId "job-" m nm := by
  intro facs
  induction facs with
  | nil => intro c j hj; cases hj
  | cons fac rest ih =>
    intro c j hj
    simp only [expectedJobs, List.map_cons, List.mem_cons] at hj
    rcases hj with hj | hj
    · exact ⟨c + 1, fac.facilityName, Nat.lt_succ_self c, by rw [hj]⟩
    · obtain ⟨m, nm, hm, hid⟩ := ih (c + 1) j hj
      exact ⟨m, nm, by omega, hid⟩

theorem expectedJobs_ids_pairwise (t : Int) :
    ∀ (facs : List DispatchFacility) (c : Nat),
      (((expectedJobs t facs c).map Prod.snd).map (fun j => j.id)).Pairwise (· ≠ ·) := by
  intro facs
  induction facs with
  | nil => intro c; exact List.Pairwise.nil
  | cons fac rest ih =>
    intro c
    simp only [expectedJobs, List.map_cons, List.pairwise_cons]
    constructor
    · intro y hy
      rcases List.mem_map.mp hy with ⟨j, hj, hjid⟩
      obtain ⟨m, nm, hm, hid⟩ := expectedJobs_id_shape t rest (c + 1) j hj
      intro hc
      rw [← hjid, hid] at hc
      have := mkJobId_counter_inj hc
      omega
    · exact ih (c + 1)

/-- C8: scheduling a future event (`startTime + 10min` strictly ahead of
now) on a fresh scheduler makes getActiveJobs return exactly one pending
job per facility of the event, in order, each with a distinct job id. -/
theorem schedule_future_pending (ev : DispatchEventS) (now : Int) (fails : String → Bool)
    (h : now < ev.startTime + tenMinutesMs) :
    (getActiveJobs (scheduleDispatchNotifications now { jobs := [], jobCounter := 0 } ev fails).1).length =
      ev.facilities.length ∧
    (getActiveJobs (scheduleDispatchNotifications now { jobs := [], jobCounter := 0 } ev fails).1).map
        (fun j => j.facilityName) = ev.facilities.map (fun f => f.facilityName) ∧
    (∀ j ∈ getActiveJobs (scheduleDispatchNotifications now { jobs := [], jobCounter := 0 } ev fails).1,
      j.status = JobStatus.pending) ∧
    ((getActiveJobs (scheduleDispatchNotifications now { jobs := [], jobCounter := 0 } ev fails).1).map
        (fun j => j.id)).Pairwise (· ≠ ·) := by
  have hnot : ¬(ev.startTime + tenMinutesMs ≤ now) := not_le.mpr h
  have hsched : (scheduleDispatchNotifications now { jobs := [], jobCounter := 0 } ev fails).1 =
      { jobs := expectedJobs (ev.startTime + tenMinutesMs) ev.facilities 0,
        jobCounter := 0 + ev.facilities.length } := by
    simp only [scheduleDispatchNotifications, hnot, if_false]
    rw [scheduleJobsAux_spec (ev.startTime + tenMinutesMs) ev.facilities 0 []
      (fun e he => absurd he (List.not_mem_nil e))]
    simp
  have hactive : getActiveJobs (scheduleDispatchNotifications now { jobs := [], jobCounter := 0 } ev fails).1 =
      (expectedJobs (ev.startTime + tenMinutesMs) ev.facilities 0).map Prod.snd := by
    rw [hsched]
    show ((expectedJobs (ev.startTime + tenMinutesMs) ev.facilities 0).map Prod.snd).filter
        (fun j => j.status == JobStatus.pending) = _
    apply List.filter_eq_self.mpr
    intro j hj
    have := expectedJobs_pending (ev.startTime + tenMinutesMs) ev.facilities 0 j hj
    simp [this]
  refine ⟨?_, ?_, ?_, ?_⟩
  · rw [hactive, List.length_map, expectedJobs_length]
  · rw [hactive, expectedJobs_names]
  · rw [hactive]
    exact expectedJobs_pending (ev.startTime + tenMinutesMs) ev.facilities 0
  · rw [hactive]
    exact expectedJobs_ids_pairwise (ev.startTime + tenMinutesMs) ev.facilities 0

/-- Event with two facilities used by the C8 witness. -/
def sampleEventS : DispatchEventS :=
  { dispatchType := "Curtailment", startTime := 0, timezone := "EDT",
    facilities := [{ companyName := "Co", facilityName := "Alpha Plant", address := "A",
                     accountNumber := "1", dispatchTarget := "5 kW" },
                   { companyName := "Co", facilityName := "Beta Plant", address := "B",
                     accountNumber := "2", dispatchTarget := "6 kW" }] }

/-- Witness for C8: a concrete future-dated two-facility event. -/
theorem schedule_future_pending_witness :
    (getActiveJobs (scheduleDispatchNotifications 0 { jobs := [], jobCounter := 0 } sampleEventS (fun _ => false)).1).length =
      sampleEventS.facilities.length ∧
    (getActiveJobs (scheduleDispatchNotifications 0 { jobs := [], jobCounter := 0 } sampleEventS (fun _ => false)).1).map
        (fun j => j.facilityName) = sampleEventS.facilities.map (fun f => f.facilityName) ∧
    (∀ j ∈ getActiveJobs (scheduleDispatchNotifications 0 { jobs := [], jobCounter := 0 } sampleEventS (fun _ => false)).1,
      j.status = JobStatus.pending) ∧
    ((getActiveJobs (scheduleDispatchNotifications 0 { jobs := [], jobCounter := 0 } sampleEventS (fun _ => false)).1).map
        (fun j => j.id)).Pairwise (· ≠ ·) :=
  schedule_future_pending sampleEventS 0 (fun _ => false) (by decide)

/-! ## CPowerEmailParser (src/unnamed/part_009)

The mailparser library is external: its output (or its rejection) is an
input of the embedding. Regex matchers are embedded as at-position parsers
scanned over every start position; where the regex engine could backtrack,
either every alternative is explored or the following mandatory literal
makes shorter runs impossible (noted at each matcher). -/

/-- One global `replace` pass (left-to-right, non-overlapping); fuel is
the input length, always sufficient because every step of a non-empty
pattern consumes at least one character. -/
def replaceAllAux (pat rep : List Char) : Nat → List Char → List Char
  | 0, s => s
  | fuel + 1, s =>
    match s with
    | [] => []
    | c :: cs =>
      match dropLit pat s with
      | some rest => rep ++ replaceAllAux pat rep fuel rest
      | none => c :: replaceAllAux pat rep fuel cs

/-- JS `String.prototype.replace` with a global literal pattern. -/
def replaceAllL (pat rep s : List Char) : List Char :=
  if pat.isEmpty then s else replaceAllAux pat rep s.length s

/-- Removal of quoted-printable soft line breaks (`/=\r?\n/g`). -/
def removeSoftBreaks : List Char → List Char
  | [] => []
  | '=' :: '\r' :: '\n' :: rest => removeSoftBreaks rest
  | '=' :: '\n' :: rest => removeSoftBreaks rest
  | c :: cs => c :: removeSoftBreaks cs

/-- CPowerEmailParser.decodeHtmlEntities: the sequential global replaces
of the source, in order. -/
def decodeHtmlEntities (html : String) : String :=
  let s1 := replaceAllL "=3D".data "=".data html.data
  let s2 := removeSoftBreaks s1
  let s3 := replaceAllL "&amp;".data "&".data s2
  let s4 := replaceAllL "&lt;".data "<".data s3
  let s5 := replaceAllL "&gt;".data ">".data s4
  let s6 := replaceAllL "&quot;".data "\"".data s5
  let s7 := replaceAllL "&#39;".data ['\''] s6
  ⟨s7⟩

/-- CPowerEmailParser.isDispatchEmail. -/
def isDispatchEmail (subject fromText : String) : Bool :=
  strContains (toLowerStr fromText) "cpowerdispatch" &&
  (strContains (toLowerStr subject) "dispatched event" ||
   strContains (toLowerStr subject) "dispatch event" ||
   strContains (toLowerStr subject) "curtailment")

/-- First position (leftmost) where the at-position matcher succeeds,
mirroring an unanchored non-global JS regex match. -/
def scanFirst {α : Type} (f : List Char → Option α) : List Char → Option α
  | [] => f []
  | c :: cs =>
    match f (c :: cs) with
    | some r => some r
    | none => scanFirst f cs

/-- Matcher at one position for `LABEL\s*OPEN([^<]+)CLOSE` with the `i`
flag, returning the capture. A shorter whitespace or capture run cannot
rescue a failing position because both classes exclude the mandatory
character that follows them. -/
def labelTagsAt (label openT closeT : List Char) (l : List Char) : Option (List Char) :=
  match dropLitCI label l with
  | none => none
  | some r1 =>
    match dropLitCI openT (r1.dropWhile isWsC) with
    | none => none
    | some r3 =>
      let cap := r3.takeWhile (fun c => !(c = '<'))
      if cap.isEmpty then none
      else
        match dropLitCI closeT (r3.dropWhile (fun c => !(c = '<'))) with
        | some _ => some cap
        | none => none

/-- First match of `label\s*<strong>([^<]+)</strong>` (case-insensitive). -/
def matchLabelStrong (label html : String) : Option String :=
  (scanFirst (labelTagsAt label.data "<strong>".data "</strong>".data) html.data).map
    (fun l => (⟨l⟩ : String))

/-- CPowerEmailParser.extractDispatchType: the two alternative label
patterns, then the literal fallback. -/
def extractDispatchType (html : String) : String :=
  match matchLabelStrong "Dispatch Alert For:" html with
  | some t => trimStr t
  | none =>
    match (scanFirst (labelTagsAt "has informed CPower of a".data "<em><strong>".data "</strong></em>".data) html.data).map (fun l => (⟨l⟩ : String)) with
    | some t => trimStr t
    | none => "Unknown Dispatch"

/-- Exactly n digit characters. -/
def takeDigits : Nat → List Char → Option (List Char × List Char)
  | 0, l => some ([], l)
  | _ + 1, [] => none
  | n + 1, c :: cs =>
    if c.isDigit then
      match takeDigits n cs with
      | some (ds, rest) => some (c :: ds, rest)
      | none => none
    else none

/-- Matcher at one position for the time regex of parseEventTime,
`(\d{1,2}:\d{2}\s*[AP]M)\s*\(([A-Z]{3,4})\)\s*On\s*(\d{2}\/\d{2}\/\d{4})`
with the `i` flag. Returns the three captures: the clock time as matched,
the timezone letters, and the date. The bounded digit and letter runs are
each followed by a character their class excludes, so taking the maximal
run (capped at the bound) is equivalent to backtracking. -/
def parseTimeAt (l : List Char) : Option (List Char × List Char × List Char) :=
  let hourDigits := (l.takeWhile Char.isDigit).take 2
  if hourDigits.isEmpty then none
  else
    match l.drop hourDigits.length with
    | ':' :: r1 =>
      match takeDigits 2 r1 with
      | none => none
      | some (minDigits, r2) =>
        let spaces := r2.takeWhile isWsC
        match r2.drop spaces.length with
        | a :: mch :: r4 =>
          if (a.toLower = 'a' || a.toLower = 'p') && mch.toLower = 'm' then
            let cap1 := hourDigits ++ ':' :: minDigits ++ spaces ++ [a, mch]
            match r4.dropWhile isWsC with
            | '(' :: r6 =>
              let letters := r6.takeWhile (fun c => c.isAlpha)
              if letters.length = 3 || letters.length = 4 then
                match r6.drop letters.length with
                | ')' :: r7 =>
                  match dropLitCI "On".data (r7.dropWhile isWsC) with
                  | none => none
                  | some r9 =>
                    match takeDigits 2 (r9.dropWhile isWsC) with
                    | some (m1, '/' :: r12) =>
                      match takeDigits 2 r12 with
                      | some (d1, '/' :: r14) =>
                        match takeDigits 4 r14 with
                        | some (y1, _) =>
                          some (cap1, letters, m1 ++ '/' :: d1 ++ '/' :: y1)
                        | none => none
                      | _ => none
                    | _ => none
                | _ => none
              else none
            | _ => none
          else none
        | _ => none
    | _ => none

/-- Outcome of parseEventTime: the string handed to the JS Date
constructor and the timezone abbreviation. -/
structure EventTime where
  dateTimeStr : String
  timezone : String
deriving DecidableEq

/-- CPowerEmailParser.parseEventTime: first regex match; the date capture
is split on `/` and rejoined with the time into the Date-constructor
string (the split and rejoin reproduce the date text verbatim). -/
def parseEventTime (timeStr : String) : Option EventTime :=
  match scanFirst parseTimeAt timeStr.data with
  | none => none
  | some (time, tz, date) =>
    some { dateTimeStr := ⟨date ++ ' ' :: time⟩, timezone := ⟨tz⟩ }

structure EventTimes where
  eventDate : String
  startTime : String
  endTime : String
  timezone : String
deriving DecidableEq

/-- CPowerEmailParser.extractEventTimes: both strong-labelled times must
be present and parseable, otherwise none. -/
def extractEventTimes (html : String) : Option EventTimes :=
  match matchLabelStrong "Event will Start at:" html with
  | none => none
  | some startStr =>
    match matchLabelStrong "Event will End at:" html with
    | none => none
    | some endStr =>
      match parseEventTime (trimStr startStr), parseEventTime (trimStr endStr) with
      | some sp, some ep =>
        some { eventDate := sp.dateTimeStr, startTime := sp.dateTimeStr,
               endTime := ep.dateTimeStr, timezone := sp.timezone }
      | _, _ => none

/-- Rest of the list after the first (case-insensitive) occurrence of the
pattern; none when it does not occur. -/
def splitAtLit (pat : List Char) : List Char → Option (List Char)
  | [] => dropLitCI pat []
  | c :: cs =>
    match dropLitCI pat (c :: cs) with
    | some rest => some rest
    | none => splitAtLit pat cs

/-- Matcher for `<OPEN[^>]*>[\s\S]*?<\/CLOSE>` at one position: the open
literal, a run of non-`>` characters, `>`, then the shortest body up to
the closing literal. Returns the matched text and the rest. -/
def tagBlockAt (openT closeT : List Char) (l : List Char) : Option (List Char × List Char) :=
  match dropLitCI openT l with
  | none => none
  | some r1 =>
    let attrs := r1.takeWhile (fun c => !(c = '>'))
    match r1.drop attrs.length with
    | '>' :: body =>
      match splitAtLit closeT body with
      | none => none
      | some rest => some (l.take (l.length - rest.length), rest)
    | _ => none

/-- All matches of a global regex: scan left to right, jumping past each
match; the fuel (instantiated with the input length) always suffices
because every match consumes at least one character. -/
def allMatches (matchAt : List Char → Option (List Char × List Char)) :
    Nat → List Char → List (List Char)
  | 0, _ => []
  | _ + 1, [] => []
  | fuel + 1, c :: cs =>
    match matchAt (c :: cs) with
    | some (m, rest) => m :: allMatches matchAt fuel rest
    | none => allMatches matchAt fuel cs

/-- Matcher for `<td[^>]*>([^<]*)<\/td>`: returns the captured cell
content (the source re-matches each full cell to read group 1, which
yields the same text) and the rest after the cell. -/
def tdCellAt (l : List Char) : Option (List Char × List Char) :=
  match dropLitCI "<td".data l with
  | none => none
  | some r1 =>
    let attrs := r1.takeWhile (fun c => !(c = '>'))
    match r1.drop attrs.length with
    | '>' :: body =>
      let cell := body.takeWhile (fun c => !(c = '<'))
      match dropLitCI "</td>".data (body.drop cell.length) with
      | some rest => some (cell, rest)
      | none => none
    | _ => none

/-- CPowerEmailParser.parseTableRow: all td cells of the row; fewer than
five cells yields null, otherwise the five fixed positions, trimmed. -/
def parseTableRow (rowHtml : List Char) : Option DispatchFacility :=
  let cells := (allMatches tdCellAt rowHtml.length rowHtml).map (fun c => trimStr ⟨c⟩)
  if cells.length < 5 then none
  else
    some { companyName := cells.getD 0 "", facilityName := cells.getD 1 "",
           address := cells.getD 2 "", accountNumber := cells.getD 3 "",
           dispatchTarget := cells.getD 4 "" }

/-- CPowerEmailParser.extractFacilities: the first table containing both
header strings, its rows minus the header row, each row parsed and
malformed rows dropped silently. -/
def extractFacilities (html : String) : List DispatchFacility :=
  let tables := allMatches (tagBlockAt "<table".data "</table>".data) html.data.length html.data
  match tables.find? (fun t => containsSub "Company Name".data t && containsSub "Facility Name".data t) with
  | none => []
  | some facilitiesTable =>
    let rows := allMatches (tagBlockAt "<tr".data "</tr>".data) facilitiesTable.length facilitiesTable
    (rows.drop 1).filterMap parseTableRow

/-- Output of the mailparser library as consumed by parseEmailContent. -/
structure ParsedMail where
  messageId : String
  subject : String
  fromText : String
  htmlBody : String
deriving DecidableEq

/-- Parser-facing DispatchEvent (src/types): Date fields carry the string
handed to the JS Date constructor, which the source never validates. -/
structure ParsedDispatchEvent where
  messageId : String
  subject : String
  fromAddr : String
  dispatchType : String
  eventDate : String
  startTime : String
  endTime : String
  timezone : String
  facilities : List DispatchFacility
  rawContent : String
deriving DecidableEq

/-- CPowerEmailParser.extractDispatchDetails. -/
def extractDispatchDetails (html : String) :
    Option (String × EventTimes × List DispatchFacility) :=
  let decodedHtml := decodeHtmlEntities html
  let dispatchType := extractDispatchType decodedHtml
  match extractEventTimes decodedHtml with
  | none => none
  | some eventTimes => some (dispatchType, eventTimes, extractFacilities decodedHtml)

/-- CPowerEmailParser.parseEmailContent after simpleParser has produced
the structured mail: classification, then detail extraction. -/
def parseEmailContent (rawEmail : String) (parsed : ParsedMail) : Option ParsedDispatchEvent :=
  if isDispatchEmail parsed.subject parsed.fromText then
    match extractDispatchDetails parsed.htmlBody with
    | none => none
    | some (dispatchType, eventTimes, facilities) =>
      some { messageId := parsed.messageId, subject := parsed.subject,
             fromAddr := parsed.fromText, dispatchType := dispatchType,
             eventDate := eventTimes.eventDate, startTime := eventTimes.startTime,
             endTime := eventTimes.endTime, timezone := eventTimes.timezone,
             facilities := facilities, rawContent := rawEmail }
  else none

/-- CPowerEmailParser.parseEmailContent including the outer try/catch: the
outcome of the awaited mail library is an oracle; a rejection is caught
and mapped to null, and the rest of the pipeline is total. -/
def parseEmailContentE (rawEmail : String) (parserOutcome : Except String ParsedMail) :
    Except String (Option ParsedDispatchEvent) :=
  Except.ok (match parserOutcome with
    | Except.error _ => none
    | Except.ok parsed => parseEmailContent rawEmail parsed)

/-! ### Claim theorems for the parser -/

theorem extractDispatchDetails_none_iff (html : String) :
    extractDispatchDetails html = none ↔
      extractEventTimes (decodeHtmlEntities html) = none := by
  cases h : extractEventTimes (decodeHtmlEntities html) with
  | none => simp [extractDispatchDetails, h]
  | some et => simp [extractDispatchDetails, h]

/-- C4: parse yields null exactly when the email fails classification (the
sender does not contain the vendor dispatch address, or the subject
contains none of the three case-insensitive phrases) or the body lacks a
parseable start or end time; in particular every non-vendor sender yields
null, and every email whose body lacks either time label yields null. -/
theorem parser_null_iff :
    (∀ (raw : String) (parsed : ParsedMail),
      parseEmailContent raw parsed = none ↔
        (strContains (toLowerStr parsed.fromText) "cpowerdispatch" = false ∨
         (strContains (toLowerStr parsed.subject) "dispatched event" = false ∧
          strContains (toLowerStr parsed.subject) "dispatch event" = false ∧
          strContains (toLowerStr parsed.subject) "curtailment" = false) ∨
         extractEventTimes (decodeHtmlEntities parsed.htmlBody) = none)) ∧
    (∀ (raw : String) (parsed : ParsedMail),
      strContains (toLowerStr parsed.fromText) "cpowerdispatch" = false →
      parseEmailContent raw parsed = none) ∧
    (∀ (raw : String) (parsed : ParsedMail),
      extractEventTimes (decodeHtmlEntities parsed.htmlBody) = none →
      parseEmailContent raw parsed = none) := by
  have hiff : ∀ (raw : String) (parsed : ParsedMail),
      parseEmailContent raw parsed = none ↔
        (strContains (toLowerStr parsed.fromText) "cpowerdispatch" = false ∨
         (strContains (toLowerStr parsed.subject) "dispatched event" = false ∧
          strContains (toLowerStr parsed.subject) "dispatch event" = false ∧
          strContains (toLowerStr parsed.subject) "curtailment" = false) ∨
         extractEventTimes (decodeHtmlEntities parsed.htmlBody) = none) := by
    intro raw parsed
    cases hd : isDispatchEmail parsed.subject parsed.fromText with
    | true =>
      have hparts := hd
      simp only [isDispatchEmail, Bool.and_eq_true, Bool.or_eq_true] at hparts
      cases hdet : extractDispatchDetails parsed.htmlBody with
      | none =>
        have htimes := (extractDispatchDetails_none_iff parsed.htmlBody).mp hdet
        have hred : parseEmailContent raw parsed = none := by
          simp [parseEmailContent, hd, hdet]
        rw [hred]
        exact ⟨fun _ => Or.inr (Or.inr htimes), fun _ => rfl⟩
      | some det =>
        obtain ⟨dt, et, fac⟩ := det
        have htimes : ¬(extractEventTimes (decodeHtmlEntities parsed.htmlBody) = none) := by
          intro hx
          have hc := (extractDispatchDetails_none_iff parsed.htmlBody).mpr hx
          rw [hdet] at hc
          exact Option.noConfusion hc
        have hred : parseEmailContent raw parsed ≠ none := by
          simp [parseEmailContent, hd, hdet]
        constructor
        · intro hc
          exact absurd hc hred
        · intro hr
          exfalso
          rcases hr with hA | hB | hC
          · have hv := hparts.1
            rw [hA] at hv
            exact Bool.noConfusion hv
          · rcases hparts.2 with (h1 | h1) | h1
            · rw [hB.1] at h1
              exact Bool.noConfusion h1
            · rw [hB.2.1] at h1
              exact Bool.noConfusion h1
            · rw [hB.2.2] at h1
              exact Bool.noConfusion h1
          · exact htimes hC
    | false =>
      have hred : parseEmailContent raw parsed = none := by
        simp [parseEmailContent, hd]
      cases hv : strContains (toLowerStr parsed.fromText) "cpowerdispatch" with
      | false => exact ⟨fun _ => Or.inl rfl, fun _ => hred⟩
      | true =>
        have hsub : (strContains (toLowerStr parsed.subject) "dispatched event" ||
            strContains (toLowerStr parsed.subject) "dispatch event" ||
            strContains (toLowerStr parsed.subject) "curtailment") = false := by
          have hds := hd
          simp only [isDispatchEmail, hv, Bool.true_and] at hds
          exact hds
        simp only [Bool.or_eq_false_iff] at hsub
        exact ⟨fun _ => Or.inr (Or.inl ⟨hsub.1.1, hsub.1.2, hsub.2⟩), fun _ => hred⟩
  refine ⟨hiff, ?_, ?_⟩
  · intro raw parsed hv
    exact (hiff raw parsed).mpr (Or.inl hv)
  · intro raw parsed ht
    exact (hiff raw parsed).mpr (Or.inr (Or.inr ht))

/-- Non-vendor mail used by the C4 witness. -/
def sampleNonVendorMail : ParsedMail :=
  { messageId := "m1", subject := "Dispatched Event tonight",
    fromText := "noreply@example.com", htmlBody := "" }

/-- Vendor mail without time labels used by the C4 witness. -/
def sampleNoTimesMail : ParsedMail :=
  { messageId := "m2", subject := "Curtailment notice",
    fromText := "CPowerDispatch@cpowercorp.com", htmlBody := "<p>hello</p>" }

/-- Witness for C4: a non-vendor sender and a vendor mail lacking the time
labels both parse to null. -/
theorem parser_null_iff_witness :
    parseEmailContent "raw1" sampleNonVendorMail = none ∧
    parseEmailContent "raw2" sampleNoTimesMail = none :=
  ⟨parser_null_iff.2.1 "raw1" sampleNonVendorMail (by decide),
   parser_null_iff.2.2 "raw2" sampleNoTimesMail (by decide)⟩

/-- C10: parseEmailContent is total: for every raw input and every outcome
of the awaited mail library, including rejection on malformed bytes, the
call returns ok with either a structured event or null, never an
exception; a library rejection yields null. -/
theorem parser_total (rawEmail : String) (parserOutcome : Except String ParsedMail) :
    ∃ r : Option ParsedDispatchEvent,
      parseEmailContentE rawEmail parserOutcome = Except.ok r ∧
      (∀ e, parserOutcome = Except.error e → r = none) := by
  cases parserOutcome with
  | error e => exact ⟨none, rfl, fun _ _ => rfl⟩
  | ok parsed => exact ⟨parseEmailContent rawEmail parsed, rfl, fun e he => nomatch he⟩

/-! ## ScreenshotService.captureUsage: hasUsageData (src/unnamed/part_007)

The page is modelled as the list of element text contents plus a flag for
a rendered chart element. The three usage regexes are interpolated into
Playwright `text=/.../` locators via `pattern.source`, which drops the `i`
flag, so matching is case-sensitive. An element matches when the regex
matches anywhere in its text; the check reads the first matching element
of each pattern. -/

/-- `\s*UNIT` at this position. -/
def matchSpacesUnit (unit : List Char) (l : List Char) : Bool :=
  (dropLit unit (l.dropWhile isWsC)).isSome

/-- Optional fraction then whitespace then the unit literal:
`(\.\d+)?\s*UNIT`. The greedy digit and whitespace runs are safe because
the unit starts with a character excluded from both classes. -/
def matchUnitFrac (unit : List Char) (l : List Char) : Bool :=
  matchSpacesUnit unit l ||
  (match l with
   | '.' :: rest =>
     !(rest.takeWhile Char.isDigit).isEmpty &&
       matchSpacesUnit unit (rest.dropWhile Char.isDigit)
   | _ => false)

/-- Tail of the kW/MW pattern after the leading digits:
`(,\d{3})*(\.\d+)?\s*UNIT`. Every group alternative is explored. -/
def matchUnitTail (unit : List Char) : List Char → Bool
  | ',' :: a :: b :: c :: rest =>
    matchUnitFrac unit (',' :: a :: b :: c :: rest) ||
    (a.isDigit && b.isDigit && c.isDigit && matchUnitTail unit rest)
  | l => matchUnitFrac unit l

/-- `\d{1,3}` then the tail, at this position; all three digit counts are
explored. -/
def matchNumUnitAt (unit : List Char) (l : List Char) : Bool :=
  match l with
  | a :: rest =>
    a.isDigit &&
    (matchUnitTail unit rest ||
     (match rest with
      | b :: rest2 =>
        b.isDigit &&
        (matchUnitTail unit rest2 ||
         (match rest2 with
          | c :: rest3 => c.isDigit && matchUnitTail unit rest3
          | [] => false))
      | [] => false))
  | [] => false

/-- Existence of a match at some position. -/
def existsMatchPos (f : List Char → Bool) : List Char → Bool
  | [] => f []
  | c :: cs => f (c :: cs) || existsMatchPos f cs

/-- `/\d{1,3}(,\d{3})*(\.\d+)?\s*kW/` without flags. -/
def matchesKWPat (s : String) : Bool :=
  existsMatchPos (matchNumUnitAt "kW".data) s.data

/-- `/\d{1,3}(,\d{3})*(\.\d+)?\s*MW/` without flags. -/
def matchesMWPat (s : String) : Bool :=
  existsMatchPos (matchNumUnitAt "MW".data) s.data

/-- Scan for `kW` with no line break in between (`.` of `.*` excludes line
terminators). -/
def kwBeforeBreak : List Char → Bool
  | [] => false
  | c :: cs =>
    (dropLit "kW".data (c :: cs)).isSome ||
    (!(c = '\n' || c = '\r') && kwBeforeBreak cs)

/-- `/Load Estimate.*kW/` without flags. -/
def matchesLoadEstPat (s : String) : Bool :=
  existsMatchPos
    (fun l =>
      match dropLit "Load Estimate".data l with
      | some rest => kwBeforeBreak rest
      | none => false)
    s.data

/-- Filter of the source on the first matching element text: skip empty
(falsy) text, text containing `0.00` or `0 kW`, and the exact text `kWh`. -/
def degenerateReading (t : String) : Bool :=
  t == "" || strContains t "0.00" || strContains t "0 kW" || t == "kWh"

/-- One pattern step of hasUsageData: when at least one element matches,
answer on the first matching element only; otherwise fall through. -/
def tryUsagePattern (matchFn : String → Bool) (texts : List String) : Bool :=
  match (texts.filter matchFn).head? with
  | some t => !(degenerateReading t)
  | none => false

/-- hasUsageData of captureUsage: the three text patterns in order, then
the chart-element fallback. -/
def hasUsageData (texts : List String) (chartPresent : Bool) : Bool :=
  tryUsagePattern matchesKWPat texts ||
  tryUsagePattern matchesMWPat texts ||
  tryUsagePattern matchesLoadEstPat texts ||
  chartPresent

/-- Greedy thousands groups of the claim's reading shape. -/
def specGroups : List Char → List Char
  | ',' :: a :: b :: c :: rest =>
    if a.isDigit && b.isDigit && c.isDigit then specGroups rest
    else ',' :: a :: b :: c :: rest
  | l => l

/-- Modelled from the claim's words, for comparison with the code-side
`hasUsageData`: a reading of the shape number-with-optional-thousands
separators (and optional decimal part), optional whitespace, `kW`,
whitespace, `@`, a clock time and `AM` or `PM`. -/
def claimReadingAt (l : List Char) : Bool :=
  if (l.takeWhile Char.isDigit).isEmpty then false
  else
    let r1 := specGroups (l.dropWhile Char.isDigit)
    let r2 := match r1 with
      | '.' :: rest =>
        if (rest.takeWhile Char.isDigit).isEmpty then '.' :: rest
        else rest.dropWhile Char.isDigit
      | other => other
    match dropLit "kW".data (r2.dropWhile isWsC) with
    | none => false
    | some r4 =>
      match dropLit "@".data (r4.dropWhile isWsC) with
      | none => false
      | some r6 =>
        let r7 := r6.dropWhile isWsC
        let hs := (r7.takeWhile Char.isDigit).take 2
        if hs.isEmpty then false
        else
          match r7.drop hs.length with
          | ':' :: r8 =>
            match takeDigits 2 r8 with
            | none => false
            | some (_, r9) =>
              let r10 := r9.dropWhile isWsC
              ((dropLit "AM".data r10).isSome || (dropLit "PM".data r10).isSome)
          | _ => false

/-- Reading shape promised acceptance by the claim, anywhere in the text. -/
def claimReadingShape (s : String) : Bool := existsMatchPos claimReadingAt s.data

/-- C2 counterexample: the reading `5,600 kW @ 1:00 PM` matches the shape
the claim promises to accept, yet hasUsageData rejects it because its
text contains the substring `0 kW` that the degenerate-zero filter looks
for; the two rejection examples of the claim do hold. -/
theorem usage_claim_counterexample :
    claimReadingShape "5,600 kW @ 1:00 PM" = true ∧
    hasUsageData ["5,600 kW @ 1:00 PM"] false = false ∧
    hasUsageData ["0.00 kWh"] false = false ∧
    hasUsageData ["kWh"] false = false := by
  refine ⟨?_, ?_, ?_, ?_⟩ <;> decide

/-- C2 amended: hasUsageData rejects a reading of exactly `0.00 kWh` or a
bare `kWh`, and accepts every element text matching the numeric kW
pattern provided the text does not contain the substrings `0.00` or
`0 kW` (texts such as `5,600 kW @ 1:00 PM` or `10.00kW @ 1:00 PM` are
rejected by that filter even though they carry genuine readings). -/
theorem usage_validation_amended :
    (∀ s : String, matchesKWPat s = true →
      strContains s "0.00" = false → strContains s "0 kW" = false →
      hasUsageData [s] false = true) ∧
    hasUsageData ["0.00 kWh"] false = false ∧
    hasUsageData ["kWh"] false = false := by
  refine ⟨?_, by decide, by decide⟩
  intro s hm h1 h2
  have hne : ¬(s = "") := by
    intro h
    rw [h] at hm
    exact absurd hm (by decide)
  have hnkwh : ¬(s = "kWh") := by
    intro h
    rw [h] at hm
    exact absurd hm (by decide)
  have hb1 : (s == "") = false := by
    simp only [beq_eq_false_iff_ne, ne_eq]
    exact hne
  have hb2 : (s == "kWh") = false := by
    simp only [beq_eq_false_iff_ne, ne_eq]
    exact hnkwh
  have hdeg : degenerateReading s = false := by
    simp [degenerateReading, hb1, hb2, h1, h2]
  have hfil : ([s].filter matchesKWPat) = [s] := by
    simp [List.filter, hm]
  simp [hasUsageData, tryUsagePattern, hfil, hdeg]

/-- Witness for C2 at the reading quoted by the spec. -/
theorem usage_validation_amended_witness :
    matchesKWPat "5,606kW @ 1:00 PM" = true ∧
    hasUsageData ["5,606kW @ 1:00 PM"] false = true :=
  ⟨by decide,
   usage_validation_amended.1 "5,606kW @ 1:00 PM" (by decide) (by decide) (by decide)⟩

/-! ## ScreenshotService.captureUsage exception flow (src/unnamed/part_007) -/

/-- Exception flow of captureUsage: the `Browser not initialized` guard,
the conditional login outside the try block, then the big try whose catch
takes a best-effort debug screenshot and returns null. The body outcome
is the oracle for the try block; the second component records whether the
catch branch ran its diagnostic screenshot. -/
def captureUsage (pageInit loggedIn : Bool) (loginOutcome : Except String Unit)
    (body : Except String (Option String)) : Except String (Option String) × Bool :=
  if !pageInit then (Except.error "Browser not initialized", false)
  else
    match (if loggedIn then Except.ok () else loginOutcome) with
    | Except.error e => (Except.error e, false)
    | Except.ok _ =>
      match body with
      | Except.ok r => (Except.ok r, false)
      | Except.error _ => (Except.ok none, true)

/-- C5 counterexample: calling captureUsage with no page initialized
propagates the `Browser not initialized` exception although the login
step was skipped (already authenticated) and nothing else failed — an
exception other than an authentication failure escapes captureUsage,
against the claim. -/
theorem capture_claim_counterexample :
    captureUsage false true (Except.ok ()) (Except.ok none) =
      (Except.error "Browser not initialized", false) := rfl

/-- C5 amended: every exception raised inside the capture try block after
authentication is caught, the diagnostic screenshot is attempted and null
is returned; an exception escapes captureUsage only from the login step
or from the browser-not-initialized guard. -/
theorem capture_errors_amended :
    (∀ (pageInit loggedIn : Bool) (loginOutcome : Except String Unit)
       (body : Except String (Option String)) (e : String),
      (captureUsage pageInit loggedIn loginOutcome body).1 = Except.error e →
      pageInit = false ∨ (loggedIn = false ∧ loginOutcome = Except.error e)) ∧
    (∀ (loggedIn : Bool) (loginOutcome : Except String Unit) (e : String),
      (loggedIn = true ∨ loginOutcome = Except.ok ()) →
      captureUsage true loggedIn loginOutcome (Except.error e) = (Except.ok none, true)) := by
  constructor
  · intro pageInit loggedIn loginOutcome body e herr
    cases pageInit with
    | false => exact Or.inl rfl
    | true =>
      cases loggedIn with
      | true =>
        cases body with
        | ok r => exact absurd herr (by simp [captureUsage])
        | error e' => exact absurd herr (by simp [captureUsage])
      | false =>
        cases loginOutcome with
        | ok u =>
          cases body with
          | ok r => exact absurd herr (by simp [captureUsage])
          | error e' => exact absurd herr (by simp [captureUsage])
        | error e' =>
          have : e' = e := by
            simp [captureUsage] at herr
            exact herr
          exact Or.inr ⟨rfl, by rw [this]⟩
  · intro loggedIn loginOutcome e hauth
    rcases hauth with hl | ho
    · rw [hl]
      rfl
    · rw [ho]
      cases loggedIn <;> rfl

/-- Witness for C5: a body exception after authentication is caught, the
diagnostic screenshot is attempted and null is returned. -/
theorem capture_errors_amended_witness :
    captureUsage true true (Except.ok ()) (Except.error "element not found") =
      (Except.ok none, true) :=
  capture_errors_amended.2 true (Except.ok ()) "element not found" (Or.inl rfl)
